import Mathlib

/-!
# oreno-quic: a shallow embedding of the packet, frame, crypto and
connection layers, with the checked claims about them.

Byte buffers are modelled as `List Nat`, each element a byte value
(`< 256` where it matters); machine integers are `Nat` with explicit
`% 2^w` at the points where the Rust code casts or wraps.  The `bytes`
crate's `put_u16`/`put_u32`/`put_u64` write big-endian, mirrored here by
`u16be`/`u32be`/`u64be`; `get_uN` reads are mirrored by `getU16`/`getU32`/
`getU64` together with `List.drop` for the cursor advance.
-/

/-- Big-endian bytes of a `u16` value (`put_u16`). -/
def u16be (x : Nat) : List Nat :=
  [x / 2 ^ 8 % 256, x % 256]

/-- Big-endian bytes of a `u32` value (`put_u32`). -/
def u32be (x : Nat) : List Nat :=
  [x / 2 ^ 24 % 256, x / 2 ^ 16 % 256, x / 2 ^ 8 % 256, x % 256]

/-- Big-endian bytes of a `u64` value (`put_u64`). -/
def u64be (x : Nat) : List Nat :=
  [x / 2 ^ 56 % 256, x / 2 ^ 48 % 256, x / 2 ^ 40 % 256, x / 2 ^ 32 % 256,
   x / 2 ^ 24 % 256, x / 2 ^ 16 % 256, x / 2 ^ 8 % 256, x % 256]

/-- Big-endian `u16` read from the front of a buffer (`get_u16`); callers
guard the buffer length, so the short-buffer default is never consulted. -/
def getU16 : List Nat → Nat
  | b0 :: b1 :: _ => b0 * 2 ^ 8 + b1
  | _ => 0

/-- Big-endian `u32` read from the front of a buffer (`get_u32`). -/
def getU32 : List Nat → Nat
  | b0 :: b1 :: b2 :: b3 :: _ => b0 * 2 ^ 24 + b1 * 2 ^ 16 + b2 * 2 ^ 8 + b3
  | _ => 0

/-- Big-endian `u64` read from the front of a buffer (`get_u64`). -/
def getU64 : List Nat → Nat
  | b0 :: b1 :: b2 :: b3 :: b4 :: b5 :: b6 :: b7 :: _ =>
      b0 * 2 ^ 56 + b1 * 2 ^ 48 + b2 * 2 ^ 40 + b3 * 2 ^ 32 +
      b4 * 2 ^ 24 + b5 * 2 ^ 16 + b6 * 2 ^ 8 + b7
  | _ => 0

deriving instance DecidableEq for Except

/-- Errors of the frame codec (`frame.rs`, `FrameError`). -/
inductive FrameError
  | invalidFormat
  | unknownFrameType (t : Nat)
deriving DecidableEq, Repr

/-- `frame.rs` `encode_varint`: the QUIC variable-length integer encoder.
The argument is a `u64`; the function never fails and ORs the two-bit
length tag onto the value. -/
def encode_varint (value : Nat) : List Nat :=
  if value < 0x40 then
    [value % 256]
  else if value < 0x4000 then
    u16be (0x4000 ||| value % 2 ^ 16)
  else if value < 0x40000000 then
    u32be (0x80000000 ||| value % 2 ^ 32)
  else
    u64be (0xC000000000000000 ||| value)

/-- `frame.rs` `decode_varint`: reads the two length bits of the first
byte, checks the buffer holds enough bytes, and masks the tag away.
Returns the decoded value together with the rest of the buffer. -/
def decode_varint (buf : List Nat) : Except FrameError (Nat × List Nat) :=
  match buf with
  | [] => .error .invalidFormat
  | b :: rest =>
    let len_bits := b >>> 6
    let len := 1 <<< len_bits
    if (b :: rest).length < len then .error .invalidFormat
    else if len_bits = 0 then .ok (b &&& 0x3F, rest)
    else if len_bits = 1 then .ok (getU16 (b :: rest) &&& 0x3FFF, (b :: rest).drop 2)
    else if len_bits = 2 then .ok (getU32 (b :: rest) &&& 0x3FFFFFFF, (b :: rest).drop 4)
    else if len_bits = 3 then .ok (getU64 (b :: rest) &&& 0x3FFFFFFFFFFFFFFF, (b :: rest).drop 8)
    else .error .invalidFormat

/-! ## Packet headers (`packet.rs`) -/

/-- `packet.rs` `PacketType` with its `as u8` discriminants 0..4. -/
inductive PacketType
  | initial
  | zeroRtt
  | handshake
  | retry
  | short
deriving DecidableEq, Repr

/-- The `as u8` value of a `PacketType`. -/
def PacketType.toByte : PacketType → Nat
  | .initial => 0x00
  | .zeroRtt => 0x01
  | .handshake => 0x02
  | .retry => 0x03
  | .short => 0x04

/-- `packet.rs` `ConnectionId`: a byte string (`Vec<u8>`). -/
structure ConnectionId where
  data : List Nat
deriving DecidableEq, Repr

/-- `packet.rs` `LongHeader`. -/
structure LongHeader where
  packet_type : PacketType
  version : Nat
  dest_conn_id : ConnectionId
  src_conn_id : ConnectionId
  packet_number : Nat
deriving DecidableEq, Repr

/-- `packet.rs` `ShortHeader`. -/
structure ShortHeader where
  dest_conn_id : ConnectionId
  packet_number : Nat
deriving DecidableEq, Repr

/-- `packet.rs` `PacketHeader`. -/
inductive PacketHeader
  | long (h : LongHeader)
  | short (h : ShortHeader)
deriving DecidableEq, Repr

/-- `packet.rs` `PacketError`. -/
inductive PacketError
  | invalidFormat
deriving DecidableEq, Repr

/-- `packet.rs` `encode_packet_number`: byte-for-byte the same algorithm as
`encode_varint` (the source duplicates the function). -/
def encode_packet_number (packet_number : Nat) : List Nat :=
  if packet_number < 0x40 then
    [packet_number % 256]
  else if packet_number < 0x4000 then
    u16be (0x4000 ||| packet_number % 2 ^ 16)
  else if packet_number < 0x40000000 then
    u32be (0x80000000 ||| packet_number % 2 ^ 32)
  else
    u64be (0xC000000000000000 ||| packet_number)

/-- `packet.rs` `decode_packet_number`: same algorithm as `decode_varint`,
returning `PacketError` instead of `FrameError`. -/
def decode_packet_number (buf : List Nat) : Except PacketError (Nat × List Nat) :=
  match buf with
  | [] => .error .invalidFormat
  | b :: rest =>
    let len_bits := b >>> 6
    let len := 1 <<< len_bits
    if (b :: rest).length < len then .error .invalidFormat
    else if len_bits = 0 then .ok (b &&& 0x3F, rest)
    else if len_bits = 1 then .ok (getU16 (b :: rest) &&& 0x3FFF, (b :: rest).drop 2)
    else if len_bits = 2 then .ok (getU32 (b :: rest) &&& 0x3FFFFFFF, (b :: rest).drop 4)
    else if len_bits = 3 then .ok (getU64 (b :: rest) &&& 0x3FFFFFFFFFFFFFFF, (b :: rest).drop 8)
    else .error .invalidFormat

/-- `packet.rs` `PacketHeader::encode`.  The long form writes
`0x80 | (type << 4)`, the version, both length-prefixed connection IDs and
the packet number; the short form writes `0x40`, the raw destination CID
bytes and the packet number. -/
def PacketHeader.encode : PacketHeader → List Nat
  | .long h =>
      (0x80 ||| h.packet_type.toByte <<< 4 % 256) ::
        (u32be h.version ++
         (h.dest_conn_id.data.length % 256 :: h.dest_conn_id.data) ++
         (h.src_conn_id.data.length % 256 :: h.src_conn_id.data) ++
         encode_packet_number h.packet_number)
  | .short h =>
      0x40 :: (h.dest_conn_id.data ++ encode_packet_number h.packet_number)

/-- The long-header type dispatch of `PacketHeader::decode`: only bits 4-5
of the first byte are inspected; the catch-all arm mirrors the source's
unreachable `_ => Err(InvalidFormat)`. -/
def longPacketType (b : Nat) : Except PacketError PacketType :=
  if (b >>> 4) &&& 0x03 = 0x00 then .ok .initial
  else if (b >>> 4) &&& 0x03 = 0x01 then .ok .zeroRtt
  else if (b >>> 4) &&& 0x03 = 0x02 then .ok .handshake
  else if (b >>> 4) &&& 0x03 = 0x03 then .ok .retry
  else .error .invalidFormat

/-- The long-header field reads of `PacketHeader::decode` after the packet
type has been resolved: version, both length-prefixed connection IDs and
the packet number, each guarded by a remaining-length check. -/
def decodeLongFields (packet_type : PacketType) (rest : List Nat) :
    Except PacketError (PacketHeader × List Nat) :=
  if rest.length < 4 then .error .invalidFormat
  else
    let version := getU32 rest
    match rest.drop 4 with
    | [] => .error .invalidFormat
    | dlen :: r2 =>
      if r2.length < dlen then .error .invalidFormat
      else
        let dcid := r2.take dlen
        match r2.drop dlen with
        | [] => .error .invalidFormat
        | slen :: r4 =>
          if r4.length < slen then .error .invalidFormat
          else
            let scid := r4.take slen
            match decode_packet_number (r4.drop slen) with
            | .error e => .error e
            | .ok (pn, r6) =>
                .ok (.long ⟨packet_type, version, ⟨dcid⟩, ⟨scid⟩, pn⟩, r6)

/-- `packet.rs` `PacketHeader::decode`: a set top bit selects the long form
(type dispatch then field reads); otherwise the short form reads a fixed
8-byte destination CID and the packet number. -/
def PacketHeader.decode (buf : List Nat) : Except PacketError (PacketHeader × List Nat) :=
  match buf with
  | [] => .error .invalidFormat
  | b :: rest =>
    if b &&& 0x80 ≠ 0 then
      match longPacketType b with
      | .error e => .error e
      | .ok packet_type => decodeLongFields packet_type rest
    else
      if rest.length < 8 then .error .invalidFormat
      else
        let dcid := rest.take 8
        match decode_packet_number (rest.drop 8) with
        | .error e => .error e
        | .ok (pn, r2) => .ok (.short ⟨⟨dcid⟩, pn⟩, r2)


/-! ## Frames (`frame.rs`) -/

/-- The byte-at-a-time UTF-8 automaton behind `utf8Valid`: `expected`
lists the admissible ranges of the continuation bytes still owed by an
open multi-byte sequence (RFC 3629: no overlongs, no surrogates, maximum
U+10FFFF — hence the narrowed ranges after `E0`, `ED`, `F0` and `F4`). -/
def utf8ValidAux : List (Nat × Nat) → List Nat → Bool
  | [], [] => true
  | _ :: _, [] => false
  | [], b :: rest =>
      if b ≤ 0x7F then utf8ValidAux [] rest
      else if 0xC2 ≤ b && b ≤ 0xDF then utf8ValidAux [(0x80, 0xBF)] rest
      else if b = 0xE0 then utf8ValidAux [(0xA0, 0xBF), (0x80, 0xBF)] rest
      else if (0xE1 ≤ b && b ≤ 0xEC) || b = 0xEE || b = 0xEF then
        utf8ValidAux [(0x80, 0xBF), (0x80, 0xBF)] rest
      else if b = 0xED then utf8ValidAux [(0x80, 0x9F), (0x80, 0xBF)] rest
      else if b = 0xF0 then utf8ValidAux [(0x90, 0xBF), (0x80, 0xBF), (0x80, 0xBF)] rest
      else if 0xF1 ≤ b && b ≤ 0xF3 then
        utf8ValidAux [(0x80, 0xBF), (0x80, 0xBF), (0x80, 0xBF)] rest
      else if b = 0xF4 then utf8ValidAux [(0x80, 0x8F), (0x80, 0xBF), (0x80, 0xBF)] rest
      else false
  | (lo, hi) :: expect, b :: rest =>
      if lo ≤ b && b ≤ hi then utf8ValidAux expect rest else false

/-- UTF-8 validity of a byte string, as checked by `String::from_utf8` in
the `0x1c` arm of `Frame::decode`. -/
def utf8Valid (l : List Nat) : Bool := utf8ValidAux [] l

/-- `frame.rs` `Frame`.  The `reason` of `ConnectionClose` is a Rust
`String`, modelled as its UTF-8 byte list.  Note the source enum has no
CRYPTO variant, although `connection.rs` and `main.rs` construct and match
a `Frame::Crypto` variant. -/
inductive Frame
  | padding (length : Nat)
  | ping
  | connectionClose (error_code : Nat) (reason : List Nat)
deriving DecidableEq, Repr

/-- `frame.rs` `Frame::encode`: PADDING writes `length` zero bytes, PING
its type byte `0x01`, CONNECTION_CLOSE its type byte `0x1c` followed by
the error code, the (constant zero) triggering frame type, the reason
length and the reason bytes.  The source returns `Result` but never an
error. -/
def Frame.encode : Frame → Except FrameError (List Nat)
  | .padding length => .ok (List.replicate length 0x00)
  | .ping => .ok [0x01]
  | .connectionClose error_code reason =>
      .ok (0x1c :: (encode_varint error_code ++ encode_varint 0 ++
        encode_varint reason.length ++ reason))

/-- `frame.rs` `Frame::decode`: dispatches on the first byte; `0x00`
swallows a run of zero bytes into one PADDING frame, `0x01` is PING,
`0x1c` reads a CONNECTION_CLOSE, and anything else is
`UnknownFrameType`. -/
def Frame.decode (buf : List Nat) : Except FrameError (Frame × List Nat) :=
  match buf with
  | [] => .error .invalidFormat
  | b :: rest =>
    if b = 0x00 then
      .ok (.padding (1 + (rest.takeWhile (fun x => x == 0)).length),
        rest.dropWhile (fun x => x == 0))
    else if b = 0x01 then .ok (.ping, rest)
    else if b = 0x1c then
      match decode_varint rest with
      | .error e => .error e
      | .ok (error_code, r1) =>
        match decode_varint r1 with
        | .error e => .error e
        | .ok (_, r2) =>
          match decode_varint r2 with
          | .error e => .error e
          | .ok (reason_length, r3) =>
            if r3.length < reason_length then .error .invalidFormat
            else if utf8Valid (r3.take reason_length) then
              .ok (.connectionClose error_code (r3.take reason_length),
                r3.drop reason_length)
            else .error .invalidFormat
    else .error (.unknownFrameType b)

/-! ## Crypto (`crypto.rs`) -/

/-- `crypto.rs` `EncryptionLevel`. -/
inductive EncryptionLevel
  | initial
  | handshake
  | application
deriving DecidableEq, Repr

/-- `crypto.rs` `CryptoError`. -/
inductive CryptoError
  | noKeys
  | encryptionFailed
  | decryptionFailed
  | keyDerivationFailed
  | hkdfError
deriving DecidableEq, Repr

/-- `crypto.rs` `CryptoKeys`: the two AEAD keys are modelled by their
16-byte AES-128-GCM key material (all a `LessSafeKey` observably holds). -/
structure CryptoKeys where
  local_key : List Nat
  remote_key : List Nat
  local_iv : List Nat
  remote_iv : List Nat
  local_pn_key : List Nat
  remote_pn_key : List Nat
deriving DecidableEq, Repr

/-- `crypto.rs` `QuicCrypto`: the `HashMap<EncryptionLevel, CryptoKeys>`
keyed by the three levels, one optional slot per level. -/
structure QuicCrypto where
  initialKeys : Option CryptoKeys
  handshakeKeys : Option CryptoKeys
  applicationKeys : Option CryptoKeys
deriving DecidableEq, Repr

/-- `QuicCrypto::new`: an empty key map. -/
def QuicCrypto.new : QuicCrypto := ⟨none, none, none⟩

/-- `crypto.rs` `QuicCrypto::setup_initial_keys`.  The body ignores both
the connection ID and the client flag: it builds `CryptoKeys` from a
16-byte all-zero `dummy_key_material`, zero IVs and zero header-protection
keys, and stores them at the Initial level.  The only failure path is
`UnboundKey::new` rejecting key material whose length differs from the
AES-128-GCM key length of 16, which the constant material never hits. -/
def QuicCrypto.setup_initial_keys (c : QuicCrypto) (connection_id : List Nat)
    (is_client : Bool) : Except CryptoError QuicCrypto :=
  let dummy_key_material : List Nat := List.replicate 16 0
  if dummy_key_material.length ≠ 16 then .error .keyDerivationFailed
  else
    .ok { c with initialKeys := some {
      local_key := dummy_key_material
      remote_key := dummy_key_material
      local_iv := List.replicate 12 0
      remote_iv := List.replicate 12 0
      local_pn_key := List.replicate 16 0
      remote_pn_key := List.replicate 16 0 } }

/-! ## Connections (`connection.rs`, `main.rs`) -/

/-- `connection.rs` `ConnectionState`. -/
inductive ConnectionState
  | initial
  | handshake
  | established
  | closing
  | closed
deriving DecidableEq, Repr

/-- `connection.rs` `ConnectionError`. -/
inductive ConnectionError
  | packetEncoding
  | frameEncoding
  | invalidState
  | tlsSetupFailed
  | tlsHandshakeFailed
  | tlsNotSetup
deriving DecidableEq, Repr

/-- `connection.rs` `Connection`.  `SocketAddr` is opaque to every claim
and modelled as a `Nat`; the three TLS fields (`tls_config`,
`client_tls`, `server_tls`) are `None` at construction and read by no
modelled operation, so they are omitted. -/
structure Connection where
  local_conn_id : ConnectionId
  remote_conn_id : Option ConnectionId
  state : ConnectionState
  remote_addr : Nat
  packet_number : Nat
  version : Nat
  is_client : Bool
  crypto : QuicCrypto
deriving DecidableEq, Repr

/-- `Connection::new_client`.  `ConnectionId::random(8)` draws 8 random
bytes; the draw is passed in as `local_conn_id`.  The `Result` of the
initial-key setup is discarded (`let _ = ...`), keeping the fresh crypto
state on error. -/
def Connection.new_client (remote_addr : Nat) (local_conn_id : ConnectionId) : Connection :=
  let crypto :=
    match QuicCrypto.new.setup_initial_keys local_conn_id.data true with
    | .ok c => c
    | .error _ => QuicCrypto.new
  { local_conn_id := local_conn_id
    remote_conn_id := none
    state := .initial
    remote_addr := remote_addr
    packet_number := 0
    version := 1
    is_client := true
    crypto := crypto }

/-- `Connection::new_server`: like `new_client` but keyed by the peer's
connection ID, which is stored as `remote_conn_id`; `local_conn_id` is the
8 random bytes drawn by `ConnectionId::random(8)`. -/
def Connection.new_server (remote_addr : Nat) (remote_conn_id : ConnectionId)
    (local_conn_id : ConnectionId) : Connection :=
  let crypto :=
    match QuicCrypto.new.setup_initial_keys remote_conn_id.data false with
    | .ok c => c
    | .error _ => QuicCrypto.new
  { local_conn_id := local_conn_id
    remote_conn_id := some remote_conn_id
    state := .initial
    remote_addr := remote_addr
    packet_number := 0
    version := 1
    is_client := false
    crypto := crypto }

/-- `Connection::next_packet_number`: returns the current counter and
increments it.  The counter is a single per-connection `u64`, shared by
every encryption level. -/
def Connection.next_packet_number (c : Connection) : Nat × Connection :=
  (c.packet_number, { c with packet_number := c.packet_number + 1 })

/-- The frame loop of `Connection::encode_packet`: encode each frame in
order, mapping any failure to `FrameEncoding`. -/
def encodeFramesAux : List Frame → Except ConnectionError (List Nat)
  | [] => .ok []
  | f :: fs =>
    match f.encode with
    | .error _ => .error .frameEncoding
    | .ok bs =>
      match encodeFramesAux fs with
      | .error e => .error e
      | .ok bss => .ok (bs ++ bss)

/-- `Connection::encode_packet`: header bytes then the frames' bytes.
(`self` is only the method receiver; the body does not read it.) -/
def Connection.encode_packet (_c : Connection) (header : PacketHeader)
    (frames : List Frame) : Except ConnectionError (List Nat) :=
  match encodeFramesAux frames with
  | .error e => .error e
  | .ok fb => .ok (header.encode ++ fb)

/-- `Connection::create_initial_packet`: draws the next packet number
(mutating the connection), builds an Initial long header with the remote
CID (or empty) as destination and the local CID as source, and encodes. -/
def Connection.create_initial_packet (c : Connection) (frames : List Frame) :
    Except ConnectionError (List Nat) × Connection :=
  let p := c.next_packet_number
  let header : PacketHeader := .long {
    packet_type := .initial
    version := c.version
    dest_conn_id := c.remote_conn_id.getD ⟨[]⟩
    src_conn_id := c.local_conn_id
    packet_number := p.1 }
  (p.2.encode_packet header frames, p.2)

/-- `Connection::create_handshake_packet`: as `create_initial_packet`
with packet type Handshake — and the same shared packet-number counter. -/
def Connection.create_handshake_packet (c : Connection) (frames : List Frame) :
    Except ConnectionError (List Nat) × Connection :=
  let p := c.next_packet_number
  let header : PacketHeader := .long {
    packet_type := .handshake
    version := c.version
    dest_conn_id := c.remote_conn_id.getD ⟨[]⟩
    src_conn_id := c.local_conn_id
    packet_number := p.1 }
  (p.2.encode_packet header frames, p.2)

/-- `Connection::handle_state_transition` (the log line aside). -/
def Connection.handle_state_transition (c : Connection) (new_state : ConnectionState) :
    Connection :=
  { c with state := new_state }

/-- `Connection::close`: builds a `ConnectionClose { error_code: 0 }`
frame, transitions to `Closing` first, and then matches on the (already
updated) state, so the catch-all arm always runs; it sends the frame in an
Initial long-header packet either way. -/
def Connection.close (c : Connection) (reason : List Nat) :
    Except ConnectionError (List Nat) × Connection :=
  let frame := Frame.connectionClose 0 reason
  let c1 := c.handle_state_transition .closing
  match c1.state with
  | .initial | .handshake => c1.create_initial_packet [frame]
  | _ =>
    let p := c1.next_packet_number
    let header : PacketHeader := .long {
      packet_type := .initial
      version := c1.version
      dest_conn_id := c1.remote_conn_id.getD ⟨[]⟩
      src_conn_id := c1.local_conn_id
      packet_number := p.1 }
    (p.2.encode_packet header [frame], p.2)

/-- `connection.rs` `ConnectionManager`: the `HashMap<Vec<u8>, Connection>`
as an association list whose keys stay distinct because insertion replaces
any existing binding. -/
structure ConnectionManager where
  connections : List (List Nat × Connection)
deriving DecidableEq, Repr

/-- `ConnectionManager::new`. -/
def ConnectionManager.new : ConnectionManager := ⟨[]⟩

/-- `ConnectionManager::get_connection`. -/
def ConnectionManager.get_connection (m : ConnectionManager) (conn_id : List Nat) :
    Option Connection :=
  (m.connections.find? (fun p => p.1 == conn_id)).map (fun p => p.2)

/-- `ConnectionManager::add_connection` (`HashMap::insert`): bind the key,
replacing any previous binding. -/
def ConnectionManager.add_connection (m : ConnectionManager) (conn_id : List Nat)
    (connection : Connection) : ConnectionManager :=
  ⟨(conn_id, connection) :: m.connections.filter (fun p => !(p.1 == conn_id))⟩

/-- `ConnectionManager::remove_connection`. -/
def ConnectionManager.remove_connection (m : ConnectionManager) (conn_id : List Nat) :
    ConnectionManager :=
  ⟨m.connections.filter (fun p => !(p.1 == conn_id))⟩

/-- The connection-ID selection of the `main.rs` receive loop: the source
CID of a long header, the destination CID of a short header. -/
def headerConnId : PacketHeader → ConnectionId
  | .long h => h.src_conn_id
  | .short h => h.dest_conn_id

/-- The connection-table step of the `main.rs` receive loop (lines 34-47):
if no connection is stored under the packet's CID, create a server
connection for the peer and insert it under that CID.  `generated_cid` is
the 8 random bytes `Connection::new_server` draws for its local CID. -/
def accept_packet_connection (manager : ConnectionManager) (header : PacketHeader)
    (peer_addr : Nat) (generated_cid : ConnectionId) : ConnectionManager :=
  let conn_id := headerConnId header
  if (manager.get_connection conn_id.data).isSome then manager
  else
    manager.add_connection conn_id.data
      (Connection.new_server peer_addr conn_id generated_cid)

/-! ## Arithmetic facts about the varint wire format -/

/-- ORing a value into a field of zero low bits is addition. -/
theorem or_low_bits_eq_add {i a b : Nat} (h : b < 2 ^ i) :
    (2 ^ i * a) ||| b = 2 ^ i * a + b :=
  (Nat.mul_add_lt_is_or h a).symm

/-- Shifted values OR componentwise: `2^i * a ||| 2^i * q = 2^i * (a ||| q)`. -/
theorem mul_pow_or (i a q : Nat) : (2 ^ i * a) ||| (2 ^ i * q) = 2 ^ i * (a ||| q) := by
  apply Nat.eq_of_testBit_eq
  intro j
  rw [Nat.testBit_or, Nat.testBit_mul_pow_two, Nat.testBit_mul_pow_two,
    Nat.testBit_mul_pow_two, Nat.testBit_or]
  rcases Nat.lt_or_ge j i with hj | hj
  · simp [Nat.not_le_of_lt hj]
  · simp [hj]

/-- The two-byte tag: for an in-range value the OR is addition. -/
theorem or_tag2 {v : Nat} (h : v < 0x4000) : 0x4000 ||| v = 0x4000 + v := by
  have := or_low_bits_eq_add (i := 14) (a := 1) (b := v) (by norm_num at h ⊢; omega)
  norm_num at this ⊢
  omega

/-- The four-byte tag: for an in-range value the OR is addition. -/
theorem or_tag4 {v : Nat} (h : v < 0x40000000) : 0x80000000 ||| v = 0x80000000 + v := by
  have := or_low_bits_eq_add (i := 30) (a := 2) (b := v) (by norm_num at h ⊢; omega)
  norm_num at this ⊢
  omega

/-- The eight-byte tag ORed onto an arbitrary `u64` keeps only the low 62
bits of the value: the tag overwrites the top two bits. -/
theorem or_tag8 {v : Nat} (h : v < 2 ^ 64) :
    0xC000000000000000 ||| v = 0xC000000000000000 + v % 2 ^ 62 := by
  have hv : v = 2 ^ 62 * (v / 2 ^ 62) + v % 2 ^ 62 := (Nat.div_add_mod v (2 ^ 62)).symm
  have hq : v / 2 ^ 62 < 4 := by omega
  have hr : v % 2 ^ 62 < 2 ^ 62 := Nat.mod_lt _ (by norm_num)
  have htag : (0xC000000000000000 : Nat) = 2 ^ 62 * 3 := by norm_num
  rw [htag]
  conv_lhs => rw [hv]
  rw [← or_low_bits_eq_add (i := 62) (a := v / 2 ^ 62) hr]
  rw [← Nat.or_assoc, mul_pow_or]
  have h3 : 3 ||| v / 2 ^ 62 = 3 := by
    interval_cases h : v / 2 ^ 62 <;> decide
  rw [h3]
  exact or_low_bits_eq_add hr

theorem and_mask6 (x : Nat) : x &&& 0x3F = x % 2 ^ 6 := by
  have := Nat.and_pow_two_sub_one_eq_mod x 6
  norm_num at this ⊢
  omega

theorem and_mask14 (x : Nat) : x &&& 0x3FFF = x % 2 ^ 14 := by
  have := Nat.and_pow_two_sub_one_eq_mod x 14
  norm_num at this ⊢
  omega

theorem and_mask30 (x : Nat) : x &&& 0x3FFFFFFF = x % 2 ^ 30 := by
  have := Nat.and_pow_two_sub_one_eq_mod x 30
  norm_num at this ⊢
  omega

theorem and_mask62 (x : Nat) : x &&& 0x3FFFFFFFFFFFFFFF = x % 2 ^ 62 := by
  have := Nat.and_pow_two_sub_one_eq_mod x 62
  norm_num at this ⊢
  omega

/-- Decoding a one-byte varint from the front of a buffer. -/
theorem decode_varint_len1 (v : Nat) (t : List Nat) (h : v < 0x40) :
    decode_varint (v :: t) = .ok (v, t) := by
  have hs : v >>> 6 = 0 := by
    rw [Nat.shiftRight_eq_div_pow]
    omega
  have hm : v &&& 0x3F = v := by
    rw [and_mask6]
    omega
  simp [decode_varint, hs, hm]

/-- Decoding a two-byte varint whose first two tag bits are `01`. -/
theorem decode_varint_len2 (b0 b1 : Nat) (t : List Nat)
    (h1 : 0x40 ≤ b0) (h2 : b0 < 0x80) :
    decode_varint (b0 :: b1 :: t) = .ok ((b0 * 2 ^ 8 + b1) &&& 0x3FFF, t) := by
  have hs : b0 >>> 6 = 1 := by
    rw [Nat.shiftRight_eq_div_pow]
    omega
  simp [decode_varint, hs, getU16]

/-- Decoding a four-byte varint whose first two tag bits are `10`. -/
theorem decode_varint_len4 (b0 b1 b2 b3 : Nat) (t : List Nat)
    (h1 : 0x80 ≤ b0) (h2 : b0 < 0xC0) :
    decode_varint (b0 :: b1 :: b2 :: b3 :: t) =
      .ok ((b0 * 2 ^ 24 + b1 * 2 ^ 16 + b2 * 2 ^ 8 + b3) &&& 0x3FFFFFFF, t) := by
  have hs : b0 >>> 6 = 2 := by
    rw [Nat.shiftRight_eq_div_pow]
    omega
  simp [decode_varint, hs, getU32]

/-- Decoding an eight-byte varint whose first two tag bits are `11`. -/
theorem decode_varint_len8 (b0 b1 b2 b3 b4 b5 b6 b7 : Nat) (t : List Nat)
    (h1 : 0xC0 ≤ b0) (h2 : b0 < 0x100) :
    decode_varint (b0 :: b1 :: b2 :: b3 :: b4 :: b5 :: b6 :: b7 :: t) =
      .ok ((b0 * 2 ^ 56 + b1 * 2 ^ 48 + b2 * 2 ^ 40 + b3 * 2 ^ 32 +
        b4 * 2 ^ 24 + b5 * 2 ^ 16 + b6 * 2 ^ 8 + b7) &&& 0x3FFFFFFFFFFFFFFF, t) := by
  have hs : b0 >>> 6 = 3 := by
    rw [Nat.shiftRight_eq_div_pow]
    omega
  simp [decode_varint, hs, getU64]

/-- Round trip of the varint codec on every `u64`, in-range or not: the
decoder recovers the value modulo `2^62`, the rest of the buffer intact. -/
theorem decode_encode_varint_mod (v : Nat) (t : List Nat) (h : v < 2 ^ 64) :
    decode_varint (encode_varint v ++ t) = .ok (v % 2 ^ 62, t) := by
  by_cases h1 : v < 0x40
  · have hv : v % 256 = v := by omega
    have hm : v % 2 ^ 62 = v := by omega
    simp only [encode_varint, if_pos h1, hv, List.cons_append, List.nil_append, hm]
    exact decode_varint_len1 v t h1
  · by_cases h2 : v < 0x4000
    · have hc : v % 2 ^ 16 = v := by omega
      simp only [encode_varint, if_neg h1, if_pos h2, hc, or_tag2 h2, u16be,
        List.cons_append, List.nil_append]
      rw [decode_varint_len2 _ _ _ (by omega) (by omega), and_mask14]
      have : ((0x4000 + v) / 2 ^ 8 % 256 * 2 ^ 8 + (0x4000 + v) % 256) % 2 ^ 14
          = v % 2 ^ 62 := by omega
      rw [this]
    · by_cases h3 : v < 0x40000000
      · have hc : v % 2 ^ 32 = v := by omega
        simp only [encode_varint, if_neg h1, if_neg h2, if_pos h3, hc, or_tag4 h3, u32be,
          List.cons_append, List.nil_append]
        rw [decode_varint_len4 _ _ _ _ _ (by omega) (by omega), and_mask30]
        have : ((0x80000000 + v) / 2 ^ 24 % 256 * 2 ^ 24 +
            (0x80000000 + v) / 2 ^ 16 % 256 * 2 ^ 16 +
            (0x80000000 + v) / 2 ^ 8 % 256 * 2 ^ 8 + (0x80000000 + v) % 256) % 2 ^ 30
            = v % 2 ^ 62 := by omega
        rw [this]
      · have hr : v % 2 ^ 62 < 2 ^ 62 := Nat.mod_lt _ (by norm_num)
        simp only [encode_varint, if_neg h1, if_neg h2, if_neg h3, or_tag8 h, u64be,
          List.cons_append, List.nil_append]
        rw [decode_varint_len8 _ _ _ _ _ _ _ _ _ (by omega) (by omega), and_mask62]
        have : ((0xC000000000000000 + v % 2 ^ 62) / 2 ^ 56 % 256 * 2 ^ 56 +
            (0xC000000000000000 + v % 2 ^ 62) / 2 ^ 48 % 256 * 2 ^ 48 +
            (0xC000000000000000 + v % 2 ^ 62) / 2 ^ 40 % 256 * 2 ^ 40 +
            (0xC000000000000000 + v % 2 ^ 62) / 2 ^ 32 % 256 * 2 ^ 32 +
            (0xC000000000000000 + v % 2 ^ 62) / 2 ^ 24 % 256 * 2 ^ 24 +
            (0xC000000000000000 + v % 2 ^ 62) / 2 ^ 16 % 256 * 2 ^ 16 +
            (0xC000000000000000 + v % 2 ^ 62) / 2 ^ 8 % 256 * 2 ^ 8 +
            (0xC000000000000000 + v % 2 ^ 62) % 256) % 2 ^ 62
            = v % 2 ^ 62 := by omega
        rw [this]

/-- Round trip of the varint codec on in-range values. -/
theorem decode_encode_varint (v : Nat) (t : List Nat) (h : v < 2 ^ 62) :
    decode_varint (encode_varint v ++ t) = .ok (v, t) := by
  have := decode_encode_varint_mod v t (by omega)
  rwa [Nat.mod_eq_of_lt h] at this

/-- The encoded length is the least of {1,2,4,8} whose range fits. -/
theorem encode_varint_length (v : Nat) :
    (encode_varint v).length =
      if v < 2 ^ 6 then 1 else if v < 2 ^ 14 then 2
      else if v < 2 ^ 30 then 4 else 8 := by
  unfold encode_varint
  split_ifs <;> simp_all [u16be, u32be, u64be] <;> omega

/-- The two packet-number helpers coincide with the varint helpers. -/
theorem encode_packet_number_eq (v : Nat) : encode_packet_number v = encode_varint v := rfl

/-- `decode_packet_number` is `decode_varint` with the error renamed. -/
theorem decode_packet_number_eq (l : List Nat) :
    decode_packet_number l =
      (decode_varint l).mapError fun _ => PacketError.invalidFormat := by
  cases l with
  | nil => rfl
  | cons b rest =>
    simp only [decode_packet_number, decode_varint]
    split_ifs <;> rfl

/-- Round trip of the packet-number codec on in-range values. -/
theorem decode_encode_packet_number (v : Nat) (t : List Nat) (h : v < 2 ^ 62) :
    decode_packet_number (encode_packet_number v ++ t) = .ok (v, t) := by
  rw [encode_packet_number_eq, decode_packet_number_eq, decode_encode_varint v t h]
  rfl

/-- Reading back a big-endian `u32` written at the front of a buffer. -/
theorem getU32_u32be (x : Nat) (t : List Nat) (h : x < 2 ^ 32) :
    getU32 (u32be x ++ t) = x := by
  simp only [u32be, List.cons_append, List.nil_append, getU32]
  omega

/-- Dropping the four bytes of a written `u32`. -/
theorem drop4_u32be (x : Nat) (t : List Nat) : (u32be x ++ t).drop 4 = t := by
  simp [u32be]

/-- The first byte a long-header encode writes for each of the four long
packet types, and its properties under the decoder's bit tests. -/
theorem long_first_byte (pt : PacketType) (h : pt ≠ .short) :
    (0x80 ||| pt.toByte <<< 4 % 256) &&& 0x80 ≠ 0 ∧
      longPacketType (0x80 ||| pt.toByte <<< 4 % 256) = .ok pt := by
  cases pt <;> first | (exfalso; exact h rfl) | (constructor <;> decide)

/-- Round trip of the long-header form: decoding the encoding of a valid
long header recovers it, leaving trailing bytes untouched. -/
theorem decode_encode_long (h : LongHeader) (rest : List Nat)
    (ht : h.packet_type ≠ .short)
    (hv : h.version < 2 ^ 32)
    (hd : h.dest_conn_id.data.length < 256)
    (hs : h.src_conn_id.data.length < 256)
    (hp : h.packet_number < 2 ^ 62) :
    PacketHeader.decode (PacketHeader.encode (.long h) ++ rest) = .ok (.long h, rest) := by
  obtain ⟨hbit, htype⟩ := long_first_byte h.packet_type ht
  have hd' : h.dest_conn_id.data.length % 256 = h.dest_conn_id.data.length := by omega
  have hs' : h.src_conn_id.data.length % 256 = h.src_conn_id.data.length := by omega
  simp only [PacketHeader.encode, hd', hs', List.cons_append, List.append_assoc,
    PacketHeader.decode, if_pos hbit, htype]
  unfold decodeLongFields
  rw [if_neg (by simp only [List.length_append, u32be, List.length_cons, List.length_nil]; omega)]
  rw [getU32_u32be _ _ hv, drop4_u32be]
  simp only [List.cons_append]
  rw [if_neg (by simp only [List.length_append, List.length_cons]; omega)]
  rw [List.take_left' rfl, List.drop_left' rfl]
  simp only [List.cons_append]
  rw [if_neg (by simp only [List.length_append, List.length_cons]; omega)]
  rw [List.take_left' rfl, List.drop_left' rfl]
  rw [decode_encode_packet_number _ _ hp]

/-- Round trip of the short-header form, which holds exactly when the
destination connection ID is the decoder's assumed 8 bytes long. -/
theorem decode_encode_short (h : ShortHeader) (rest : List Nat)
    (hd : h.dest_conn_id.data.length = 8)
    (hp : h.packet_number < 2 ^ 62) :
    PacketHeader.decode (PacketHeader.encode (.short h) ++ rest) = .ok (.short h, rest) := by
  simp only [PacketHeader.encode, List.cons_append, PacketHeader.decode]
  rw [if_neg (by decide)]
  rw [List.append_assoc] at *
  rw [if_neg (by simp [List.length_append]; omega)]
  rw [List.take_left' hd, List.drop_left' hd]
  rw [decode_encode_packet_number _ _ hp]

/-! ## Claims -/

/-- Claim C2 (code_bug evidence): the frame codec has no CRYPTO frame.
`Frame::decode` applied to a buffer whose first byte is `0x06` returns the
`UnknownFrameType(0x06)` error rather than a CRYPTO variant, which the
`Frame` enum does not even have — even though `connection.rs` and
`main.rs` construct and match `Frame::Crypto`. -/
theorem c2_crypto_frame_unknown :
    Frame.decode [0x06] = .error (.unknownFrameType 0x06) := by decide

/-- Claim C3 (code_bug evidence): `encode_varint` does not reject values
at or above `2^62`.  At the failing input `2^62` it silently emits eight
bytes whose top two bits are the length tag, and decoding them yields `0`,
not an error surfaced to the caller. -/
theorem c3_encoder_accepts_out_of_range :
    encode_varint (2 ^ 62) = [0xC0, 0, 0, 0, 0, 0, 0, 0] ∧
      decode_varint [0xC0, 0, 0, 0, 0, 0, 0, 0] = .ok (0, []) := by decide

/-- Claim C4: for every `v < 2^62`, decoding the encoding of `v` returns
`v` (consuming the whole buffer), and the encoded length is the least of
{1,2,4,8} whose range fits `v`. -/
theorem c4_varint_roundtrip (v : Nat) (h : v < 2 ^ 62) :
    decode_varint (encode_varint v) = .ok (v, []) ∧
      (encode_varint v).length =
        (if v < 2 ^ 6 then 1 else if v < 2 ^ 14 then 2
         else if v < 2 ^ 30 then 4 else 8) := by
  refine ⟨?_, encode_varint_length v⟩
  have := decode_encode_varint v [] h
  simpa using this

/-- Witness for C4 at `v = 2^62 - 1`. -/
theorem c4_varint_roundtrip_witness :
    2 ^ 62 - 1 < 2 ^ 62 ∧
      (decode_varint (encode_varint (2 ^ 62 - 1)) = .ok (2 ^ 62 - 1, []) ∧
        (encode_varint (2 ^ 62 - 1)).length =
          (if 2 ^ 62 - 1 < 2 ^ 6 then 1 else if 2 ^ 62 - 1 < 2 ^ 14 then 2
           else if 2 ^ 62 - 1 < 2 ^ 30 then 4 else 8)) :=
  ⟨by norm_num, c4_varint_roundtrip (2 ^ 62 - 1) (by norm_num)⟩

/-- Claim C9: for every 64-bit value, in range or not, `encode_varint`
emits a parseable varint and decoding returns the value modulo `2^62`:
the top two bits of an out-of-range value are overwritten by the length
tag and lost. -/
theorem c9_varint_truncates_mod (v : Nat) (h : v < 2 ^ 64) :
    decode_varint (encode_varint v) = .ok (v % 2 ^ 62, []) := by
  have := decode_encode_varint_mod v [] h
  simpa using this

/-- Witness for C9 at the out-of-range value `2^62 + 5`. -/
theorem c9_varint_truncates_mod_witness :
    2 ^ 62 + 5 < 2 ^ 64 ∧
      decode_varint (encode_varint (2 ^ 62 + 5)) = .ok ((2 ^ 62 + 5) % 2 ^ 62, []) :=
  ⟨by norm_num, c9_varint_truncates_mod (2 ^ 62 + 5) (by norm_num)⟩

/-- Claim C10: for every buffer whose first byte has the top bit set, the
long-header type dispatch always resolves one of the four long packet
types — only bits 4–5 are inspected, so the unknown-type arm is
unreachable and decoding proceeds to the length-guarded field reads
(whose only failures are truncation failures). -/
theorem c10_long_type_dispatch_total (b : Nat) (rest : List Nat)
    (hb : b < 256) (htop : b &&& 0x80 ≠ 0) :
    ∃ t, longPacketType b = .ok t ∧
      PacketHeader.decode (b :: rest) = decodeLongFields t rest := by
  have hx : (b >>> 4) &&& 0x03 = (b >>> 4) % 4 := by
    have := Nat.and_pow_two_sub_one_eq_mod (b >>> 4) 2
    norm_num at this ⊢
    omega
  have hlt : (b >>> 4) % 4 < 4 := Nat.mod_lt _ (by norm_num)
  have hcases : (b >>> 4) &&& 0x03 = 0 ∨ (b >>> 4) &&& 0x03 = 1 ∨
      (b >>> 4) &&& 0x03 = 2 ∨ (b >>> 4) &&& 0x03 = 3 := by omega
  rcases hcases with h | h | h | h
  · exact ⟨.initial, by simp [longPacketType, h], by simp [PacketHeader.decode, htop, longPacketType, h]⟩
  · exact ⟨.zeroRtt, by simp [longPacketType, h], by simp [PacketHeader.decode, htop, longPacketType, h]⟩
  · exact ⟨.handshake, by simp [longPacketType, h], by simp [PacketHeader.decode, htop, longPacketType, h]⟩
  · exact ⟨.retry, by simp [longPacketType, h], by simp [PacketHeader.decode, htop, longPacketType, h]⟩

/-- Witness for C10 at the first byte `0xC5`. -/
theorem c10_long_type_dispatch_total_witness :
    (0xC5 : Nat) < 256 ∧ (0xC5 : Nat) &&& 0x80 ≠ 0 ∧
      ∃ t, longPacketType 0xC5 = .ok t ∧
        PacketHeader.decode (0xC5 :: [1, 2, 3]) = decodeLongFields t [1, 2, 3] :=
  ⟨by decide, by decide, c10_long_type_dispatch_total 0xC5 [1, 2, 3] (by decide) (by decide)⟩

/-- Claim C8 (counterexample): no pair of distinct connection IDs yields
different Initial key material — `setup_initial_keys` ignores its
connection-ID argument entirely, so the claimed HKDF dependence on the
destination CID is absent. -/
theorem c8_initial_keys_ignore_cid :
    ¬ ∃ (cid1 cid2 : List Nat) (b : Bool), cid1 ≠ cid2 ∧
      QuicCrypto.new.setup_initial_keys cid1 b ≠ QuicCrypto.new.setup_initial_keys cid2 b := by
  rintro ⟨cid1, cid2, b, -, hdiff⟩
  exact hdiff rfl

/-- Claim C8 (amended): `setup_initial_keys` installs a constant,
all-zero Initial key set — 16-byte zero AEAD key material for both
directions, zero IVs and zero header-protection keys — for every
connection ID and role, leaving the other levels untouched. -/
theorem c8_initial_keys_constant (c : QuicCrypto) (cid : List Nat) (b : Bool) :
    c.setup_initial_keys cid b = .ok { c with initialKeys := some {
      local_key := List.replicate 16 0
      remote_key := List.replicate 16 0
      local_iv := List.replicate 12 0
      remote_iv := List.replicate 12 0
      local_pn_key := List.replicate 16 0
      remote_pn_key := List.replicate 16 0 } } := rfl

/-- Every frame encodes successfully (the source's `Result` is never an
error), so the frame loop of `encode_packet` always succeeds. -/
theorem encodeFramesAux_ok (fs : List Frame) : ∃ bs, encodeFramesAux fs = .ok bs := by
  induction fs with
  | nil => exact ⟨[], rfl⟩
  | cons f fs ih =>
    obtain ⟨bs, hbs⟩ := ih
    cases f with
    | padding n =>
        exact ⟨List.replicate n 0 ++ bs, by simp [encodeFramesAux, Frame.encode, hbs]⟩
    | ping =>
        exact ⟨[0x01] ++ bs, by simp [encodeFramesAux, Frame.encode, hbs]⟩
    | connectionClose ec reason =>
        exact ⟨(0x1c :: (encode_varint ec ++ encode_varint 0 ++
          encode_varint reason.length ++ reason)) ++ bs,
          by simp [encodeFramesAux, Frame.encode, hbs]⟩

/-- `create_initial_packet` always succeeds, emits the Initial long header
followed by the frames' bytes, and bumps the shared packet counter. -/
theorem create_initial_packet_spec (c : Connection) (frames : List Frame) :
    ∃ fb, encodeFramesAux frames = .ok fb ∧
      c.create_initial_packet frames =
        (.ok (PacketHeader.encode (.long ⟨.initial, c.version,
            c.remote_conn_id.getD ⟨[]⟩, c.local_conn_id, c.packet_number⟩) ++ fb),
          { c with packet_number := c.packet_number + 1 }) := by
  obtain ⟨fb, hfb⟩ := encodeFramesAux_ok frames
  refine ⟨fb, hfb, ?_⟩
  simp [Connection.create_initial_packet, Connection.next_packet_number,
    Connection.encode_packet, hfb]

/-- `create_handshake_packet` likewise, with the Handshake packet type and
the same shared counter. -/
theorem create_handshake_packet_spec (c : Connection) (frames : List Frame) :
    ∃ fb, encodeFramesAux frames = .ok fb ∧
      c.create_handshake_packet frames =
        (.ok (PacketHeader.encode (.long ⟨.handshake, c.version,
            c.remote_conn_id.getD ⟨[]⟩, c.local_conn_id, c.packet_number⟩) ++ fb),
          { c with packet_number := c.packet_number + 1 }) := by
  obtain ⟨fb, hfb⟩ := encodeFramesAux_ok frames
  refine ⟨fb, hfb, ?_⟩
  simp [Connection.create_handshake_packet, Connection.next_packet_number,
    Connection.encode_packet, hfb]

/-- `decode_encode_long` restated over the header's fields. -/
theorem decode_encode_long_fields (pt : PacketType) (v : Nat) (d s : ConnectionId)
    (pn : Nat) (rest : List Nat) (ht : pt ≠ .short) (hv : v < 2 ^ 32)
    (hd : d.data.length < 256) (hs : s.data.length < 256) (hp : pn < 2 ^ 62) :
    PacketHeader.decode (PacketHeader.encode (.long ⟨pt, v, d, s, pn⟩) ++ rest)
      = .ok (.long ⟨pt, v, d, s, pn⟩, rest) :=
  decode_encode_long ⟨pt, v, d, s, pn⟩ rest ht hv hd hs hp

/-- Claim C1 (counterexample): a short header with an empty destination
CID — valid per the claimed data model, whose CID lengths run 0-20 — does
not round-trip: the decoder unconditionally reads an 8-byte CID and fails
on the 2-byte encoding. -/
theorem c1_short_roundtrip_counterexample :
    ([] : List Nat).length ≤ 20 ∧ (0 : Nat) < 2 ^ 62 ∧
      PacketHeader.decode (PacketHeader.encode (.short ⟨⟨[]⟩, 0⟩))
        = .error .invalidFormat := by decide

/-- Claim C1 (amended): long headers round-trip for every long packet
type, 32-bit version, CIDs of length 0-20 and packet number below `2^62`;
short headers round-trip exactly under the decoder's assumption of an
8-byte destination CID.  Trailing bytes are preserved as the rest. -/
theorem c1_header_roundtrip :
    (∀ (h : LongHeader) (rest : List Nat), h.packet_type ≠ .short →
      h.version < 2 ^ 32 →
      h.dest_conn_id.data.length ≤ 20 → (∀ b ∈ h.dest_conn_id.data, b < 256) →
      h.src_conn_id.data.length ≤ 20 → (∀ b ∈ h.src_conn_id.data, b < 256) →
      h.packet_number < 2 ^ 62 →
      PacketHeader.decode (PacketHeader.encode (.long h) ++ rest) = .ok (.long h, rest))
    ∧ (∀ (h : ShortHeader) (rest : List Nat),
      h.dest_conn_id.data.length = 8 → (∀ b ∈ h.dest_conn_id.data, b < 256) →
      h.packet_number < 2 ^ 62 →
      PacketHeader.decode (PacketHeader.encode (.short h) ++ rest) = .ok (.short h, rest)) := by
  constructor
  · intro h rest ht hv hd _ hs _ hp
    exact decode_encode_long h rest ht hv (by omega) (by omega) hp
  · intro h rest hd _ hp
    exact decode_encode_short h rest hd hp

/-- Witness for C1 on the repository's own test vectors. -/
theorem c1_header_roundtrip_witness :
    PacketHeader.decode
        (PacketHeader.encode (.long ⟨.initial, 1, ⟨[1, 2, 3, 4]⟩, ⟨[5, 6, 7, 8]⟩, 42⟩) ++ [])
      = .ok (.long ⟨.initial, 1, ⟨[1, 2, 3, 4]⟩, ⟨[5, 6, 7, 8]⟩, 42⟩, []) ∧
    PacketHeader.decode
        (PacketHeader.encode (.short ⟨⟨[1, 2, 3, 4, 5, 6, 7, 8]⟩, 123⟩) ++ [])
      = .ok (.short ⟨⟨[1, 2, 3, 4, 5, 6, 7, 8]⟩, 123⟩, []) :=
  ⟨c1_header_roundtrip.1 ⟨.initial, 1, ⟨[1, 2, 3, 4]⟩, ⟨[5, 6, 7, 8]⟩, 42⟩ []
      (by decide) (by decide) (by decide) (by decide) (by decide) (by decide) (by decide),
    c1_header_roundtrip.2 ⟨⟨[1, 2, 3, 4, 5, 6, 7, 8]⟩, 123⟩ []
      (by decide) (by decide) (by decide)⟩

/-- Claim C5 (counterexample): packet numbers are not per-encryption
level.  On a fresh client connection, one Initial packet followed by the
connection's first Handshake-level packet yields a Handshake packet
carrying packet number 1, not 0 — the counter is shared. -/
theorem c5_handshake_number_counterexample :
    (({ Connection.new_client 0 ⟨[1, 2, 3, 4, 5, 6, 7, 8]⟩ with
          remote_conn_id := some ⟨[5, 6, 7, 8]⟩ }.create_initial_packet
        []).2.create_handshake_packet []).1
      = .ok [160, 0, 0, 0, 1, 4, 5, 6, 7, 8, 8, 1, 2, 3, 4, 5, 6, 7, 8, 1] ∧
    PacketHeader.decode [160, 0, 0, 0, 1, 4, 5, 6, 7, 8, 8, 1, 2, 3, 4, 5, 6, 7, 8, 1]
      = .ok (.long ⟨.handshake, 1, ⟨[5, 6, 7, 8]⟩, ⟨[1, 2, 3, 4, 5, 6, 7, 8]⟩, 1⟩, []) := by
  decide

/-- Claim C5 (amended): the packet number is a single per-connection
counter shared by all encryption levels, monotonically increasing from
zero at connection creation: two successive sends — here an Initial
packet then a Handshake packet — carry consecutive packet numbers
`n` and `n + 1`, whatever the levels. -/
theorem c5_packet_numbers_consecutive (c : Connection) (f1 f2 : List Frame)
    (hv : c.version < 2 ^ 32)
    (hp : c.packet_number + 1 < 2 ^ 62)
    (hd : (c.remote_conn_id.getD ⟨[]⟩).data.length < 256)
    (hl : c.local_conn_id.data.length < 256) :
    (c.create_initial_packet f1).2.packet_number = c.packet_number + 1 ∧
    ∃ b1 r1 b2 r2,
      (c.create_initial_packet f1).1 = .ok b1 ∧
      PacketHeader.decode b1 = .ok (.long ⟨.initial, c.version,
        c.remote_conn_id.getD ⟨[]⟩, c.local_conn_id, c.packet_number⟩, r1) ∧
      ((c.create_initial_packet f1).2.create_handshake_packet f2).1 = .ok b2 ∧
      PacketHeader.decode b2 = .ok (.long ⟨.handshake, c.version,
        c.remote_conn_id.getD ⟨[]⟩, c.local_conn_id, c.packet_number + 1⟩, r2) := by
  obtain ⟨fb1, hfb1, hcall1⟩ := create_initial_packet_spec c f1
  obtain ⟨fb2, hfb2, hcall2⟩ :=
    create_handshake_packet_spec { c with packet_number := c.packet_number + 1 } f2
  rw [hcall1]
  dsimp only
  refine ⟨rfl,
    PacketHeader.encode (.long ⟨.initial, c.version,
      c.remote_conn_id.getD ⟨[]⟩, c.local_conn_id, c.packet_number⟩) ++ fb1, fb1,
    PacketHeader.encode (.long ⟨.handshake, c.version,
      c.remote_conn_id.getD ⟨[]⟩, c.local_conn_id, c.packet_number + 1⟩) ++ fb2, fb2,
    rfl, ?_, ?_, ?_⟩
  · exact decode_encode_long_fields .initial c.version
      (c.remote_conn_id.getD ⟨[]⟩) c.local_conn_id c.packet_number fb1
      (by decide) hv hd hl (by omega)
  · rw [hcall2]
  · exact decode_encode_long_fields .handshake c.version
      (c.remote_conn_id.getD ⟨[]⟩) c.local_conn_id (c.packet_number + 1) fb2
      (by decide) hv hd hl hp

/-- Witness for C5 on a small concrete client connection. -/
theorem c5_packet_numbers_consecutive_witness :
    (Connection.new_client 0 ⟨[1, 2]⟩).version < 2 ^ 32 ∧
    ((Connection.new_client 0 ⟨[1, 2]⟩).create_initial_packet []).2.packet_number = 1 ∧
    ∃ b1 r1 b2 r2,
      ((Connection.new_client 0 ⟨[1, 2]⟩).create_initial_packet []).1 = .ok b1 ∧
      PacketHeader.decode b1 = .ok (.long ⟨.initial, 1, ⟨[]⟩, ⟨[1, 2]⟩, 0⟩, r1) ∧
      (((Connection.new_client 0 ⟨[1, 2]⟩).create_initial_packet
          []).2.create_handshake_packet []).1 = .ok b2 ∧
      PacketHeader.decode b2 = .ok (.long ⟨.handshake, 1, ⟨[]⟩, ⟨[1, 2]⟩, 1⟩, r2) :=
  ⟨by decide,
    (c5_packet_numbers_consecutive (Connection.new_client 0 ⟨[1, 2]⟩) [] []
      (by decide) (by decide) (by decide) (by decide)).1,
    (c5_packet_numbers_consecutive (Connection.new_client 0 ⟨[1, 2]⟩) [] []
      (by decide) (by decide) (by decide) (by decide)).2⟩

/-- Claim C6 (counterexample): the connection-table key is not the
connection's locally-chosen CID.  A first packet whose long header carries
source CID `[1,2,3,4]` makes the server store the new connection under
`[1,2,3,4]` — the peer's CID, kept as `remote_conn_id` — while the
connection's own locally-chosen CID is the freshly drawn `[7,7,7,7,7,7,7,7]`. -/
theorem c6_table_key_counterexample :
    (accept_packet_connection ConnectionManager.new
        (.long ⟨.initial, 1, ⟨[9]⟩, ⟨[1, 2, 3, 4]⟩, 0⟩) 0
        ⟨[7, 7, 7, 7, 7, 7, 7, 7]⟩).get_connection [1, 2, 3, 4]
      = some (Connection.new_server 0 ⟨[1, 2, 3, 4]⟩ ⟨[7, 7, 7, 7, 7, 7, 7, 7]⟩) ∧
    (Connection.new_server 0 ⟨[1, 2, 3, 4]⟩
        ⟨[7, 7, 7, 7, 7, 7, 7, 7]⟩).local_conn_id.data ≠ [1, 2, 3, 4] := by
  decide

/-- Claim C6 (amended): when the receive loop inserts a connection, the
key is the incoming packet's CID (source CID of a long header), which the
new server connection stores as its remote — peer-chosen — CID, not its
locally-chosen one; and insertion keeps the table's keys distinct, so each
key maps to at most one connection. -/
theorem c6_table_key_is_peer_cid :
    (∀ (m : ConnectionManager) (hdr : PacketHeader) (peer : Nat) (g : ConnectionId),
      m.get_connection (headerConnId hdr).data = none →
        (accept_packet_connection m hdr peer g).get_connection (headerConnId hdr).data
            = some (Connection.new_server peer (headerConnId hdr) g) ∧
          (Connection.new_server peer (headerConnId hdr) g).remote_conn_id
            = some (headerConnId hdr)) ∧
    (∀ (m : ConnectionManager) (k : List Nat) (conn : Connection),
      (m.connections.map Prod.fst).Nodup →
        (((m.add_connection k conn).connections.map Prod.fst).Nodup)) := by
  constructor
  · intro m hdr peer g hnone
    refine ⟨?_, rfl⟩
    simp only [ConnectionManager.get_connection] at hnone
    have hfind : List.find? (fun p => p.1 == (headerConnId hdr).data) m.connections
        = none := by
      cases hf : List.find? (fun p => p.1 == (headerConnId hdr).data) m.connections with
      | none => rfl
      | some p => rw [hf] at hnone; simp at hnone
    simp [accept_packet_connection, ConnectionManager.get_connection, hfind,
      ConnectionManager.add_connection, List.find?]
  · intro m k conn h
    simp only [ConnectionManager.add_connection, List.map_cons]
    rw [List.nodup_cons]
    constructor
    · intro hmem
      rw [List.mem_map] at hmem
      obtain ⟨p, hp, hpk⟩ := hmem
      rw [List.mem_filter] at hp
      rw [hpk] at hp
      simp at hp
    · exact ((List.filter_sublist _).map _).nodup h

/-- Witness for C6: inserting into the empty table. -/
theorem c6_table_key_is_peer_cid_witness :
    ConnectionManager.new.get_connection
        (headerConnId (.long ⟨.initial, 1, ⟨[9]⟩, ⟨[1, 2]⟩, 0⟩)).data = none ∧
    ((accept_packet_connection ConnectionManager.new
          (.long ⟨.initial, 1, ⟨[9]⟩, ⟨[1, 2]⟩, 0⟩) 3
          ⟨[4, 4, 4, 4, 4, 4, 4, 4]⟩).get_connection
        (headerConnId (.long ⟨.initial, 1, ⟨[9]⟩, ⟨[1, 2]⟩, 0⟩)).data
      = some (Connection.new_server 3 (headerConnId (.long ⟨.initial, 1, ⟨[9]⟩, ⟨[1, 2]⟩, 0⟩))
          ⟨[4, 4, 4, 4, 4, 4, 4, 4]⟩) ∧
      (Connection.new_server 3 (headerConnId (.long ⟨.initial, 1, ⟨[9]⟩, ⟨[1, 2]⟩, 0⟩))
          ⟨[4, 4, 4, 4, 4, 4, 4, 4]⟩).remote_conn_id
        = some (headerConnId (.long ⟨.initial, 1, ⟨[9]⟩, ⟨[1, 2]⟩, 0⟩))) ∧
    ((ConnectionManager.new.connections.map Prod.fst).Nodup →
      (((ConnectionManager.new.add_connection [1, 2]
          (Connection.new_server 3 ⟨[1, 2]⟩ ⟨[4, 4, 4, 4, 4, 4, 4, 4]⟩)).connections.map
        Prod.fst).Nodup)) :=
  ⟨by decide,
    c6_table_key_is_peer_cid.1 ConnectionManager.new
      (.long ⟨.initial, 1, ⟨[9]⟩, ⟨[1, 2]⟩, 0⟩) 3 ⟨[4, 4, 4, 4, 4, 4, 4, 4]⟩ (by decide),
    c6_table_key_is_peer_cid.2 ConnectionManager.new [1, 2]
      (Connection.new_server 3 ⟨[1, 2]⟩ ⟨[4, 4, 4, 4, 4, 4, 4, 4]⟩)⟩

/-- Claim C7: `close("bye")` on an initiator connection (version 1)
returns one datagram that decodes to an Initial long header (version 1)
followed by exactly one frame — `ConnectionClose` with error code 0, a
zero triggering frame type (the third byte of the frame), and reason
"bye" (UTF-8 `[0x62, 0x79, 0x65]`) — and leaves the connection in the
`Closing` state. -/
theorem c7_close_bye (c : Connection)
    (hc : c.is_client = true) (hv : c.version = 1)
    (hp : c.packet_number < 2 ^ 62)
    (hd : (c.remote_conn_id.getD ⟨[]⟩).data.length < 256)
    (hl : c.local_conn_id.data.length < 256) :
    ∃ bs,
      (c.close [0x62, 0x79, 0x65]).1 = .ok bs ∧
      (c.close [0x62, 0x79, 0x65]).2.state = .closing ∧
      PacketHeader.decode bs = .ok (.long ⟨.initial, 1, c.remote_conn_id.getD ⟨[]⟩,
        c.local_conn_id, c.packet_number⟩,
        [0x1c, 0x00, 0x00, 0x03, 0x62, 0x79, 0x65]) ∧
      Frame.decode [0x1c, 0x00, 0x00, 0x03, 0x62, 0x79, 0x65]
        = .ok (.connectionClose 0 [0x62, 0x79, 0x65], []) := by
  have hframe : encodeFramesAux [Frame.connectionClose 0 [0x62, 0x79, 0x65]]
      = .ok [0x1c, 0x00, 0x00, 0x03, 0x62, 0x79, 0x65] := rfl
  refine ⟨PacketHeader.encode (.long ⟨.initial, c.version, c.remote_conn_id.getD ⟨[]⟩,
    c.local_conn_id, c.packet_number⟩) ++ [0x1c, 0x00, 0x00, 0x03, 0x62, 0x79, 0x65],
    ?_, ?_, ?_, by decide⟩
  · simp [Connection.close, Connection.handle_state_transition,
      Connection.next_packet_number, Connection.encode_packet, hframe]
  · simp [Connection.close, Connection.handle_state_transition,
      Connection.next_packet_number, Connection.encode_packet, hframe]
  · rw [hv]
    exact decode_encode_long_fields .initial 1 (c.remote_conn_id.getD ⟨[]⟩)
      c.local_conn_id c.packet_number [0x1c, 0x00, 0x00, 0x03, 0x62, 0x79, 0x65]
      (by decide) (by norm_num) hd hl hp

/-- Witness for C7 on a fresh client connection. -/
theorem c7_close_bye_witness :
    (Connection.new_client 0 ⟨[1, 2, 3, 4, 5, 6, 7, 8]⟩).is_client = true ∧
    ∃ bs,
      ((Connection.new_client 0 ⟨[1, 2, 3, 4, 5, 6, 7, 8]⟩).close
          [0x62, 0x79, 0x65]).1 = .ok bs ∧
      ((Connection.new_client 0 ⟨[1, 2, 3, 4, 5, 6, 7, 8]⟩).close
          [0x62, 0x79, 0x65]).2.state = .closing ∧
      PacketHeader.decode bs = .ok (.long ⟨.initial, 1, ⟨[]⟩,
        ⟨[1, 2, 3, 4, 5, 6, 7, 8]⟩, 0⟩, [0x1c, 0x00, 0x00, 0x03, 0x62, 0x79, 0x65]) ∧
      Frame.decode [0x1c, 0x00, 0x00, 0x03, 0x62, 0x79, 0x65]
        = .ok (.connectionClose 0 [0x62, 0x79, 0x65], []) :=
  ⟨rfl, c7_close_bye (Connection.new_client 0 ⟨[1, 2, 3, 4, 5, 6, 7, 8]⟩)
    rfl rfl (by decide) (by decide) (by decide)⟩
